import Mathlib

/-!
Verification of the Pebble daily-expense tracker (src/App.tsx).

The ledger ("book") is a day-keyed map from `YYYY-MM-DD` strings to lists of
expense entries.  JavaScript objects keep string keys in insertion order, so
the book is embedded as an association list; the spread-update
`{...prev, [k]: v}` replaces the value of an existing key in place and
appends a fresh key at the end, which `setKey` mirrors.  Amounts are
JavaScript numbers used as exact decimals; they are embedded as rationals.
A JS `Date` is an instant together with its local calendar projection; it is
embedded as `Instant` (epoch milliseconds plus the local civil date fields
read by `getFullYear`/`getMonth`/`getDate`).
-/

namespace Pebble

/-! ### Decimal numerals (model of JavaScript `String(n)` on naturals) -/

/-- The character for a decimal digit `d < 10`. -/
def digitChar (d : Nat) : Char := Char.ofNat (48 + d)

/-- Decimal digits of `n`, least significant first; `fuel ≥ n` suffices. -/
def toDigitsRev : Nat → Nat → List Nat
  | 0, _ => []
  | fuel + 1, n => if n = 0 then [] else n % 10 :: toDigitsRev fuel (n / 10)

/-- Decimal representation of a natural number, as produced by `String(n)`
in JavaScript. -/
def natRepr (n : Nat) : String :=
  if n = 0 then "0" else String.mk (((toDigitsRev n n).map digitChar).reverse)

/-- Inverse digit map, for proving `natRepr` injective. -/
def charToDigit (c : Char) : Nat := c.toNat - 48

/-- Value of a least-significant-first digit list. -/
def ofDigitsRev : List Nat → Nat
  | [] => 0
  | d :: ds => d + 10 * ofDigitsRev ds

/-- Decoder that is a left inverse of `natRepr`. -/
def decodeRepr (s : String) : Nat := ofDigitsRev (s.data.reverse.map charToDigit)

/-- Model of JavaScript `s.padStart(2, '0')`. -/
def padStart2 (s : String) : String :=
  if s.length < 2 then String.mk (List.replicate (2 - s.length) '0') ++ s else s

/-! ### Dates and instants -/

/-- A local calendar date, as read off a JS `Date` by `getFullYear` (year),
`getMonth` (0-based month, always `< 12`) and `getDate` (day of month,
always in `1..31`). -/
structure CivilDate where
  year : Nat
  month : Nat
  day : Nat
deriving DecidableEq

/-- The component ranges `getMonth`/`getDate` always satisfy. -/
def CivilDate.Valid (d : CivilDate) : Prop := d.month < 12 ∧ 1 ≤ d.day ∧ d.day ≤ 31

instance (d : CivilDate) : Decidable d.Valid := by
  unfold CivilDate.Valid; infer_instance

/-- A JS `Date`: an instant (epoch milliseconds) together with its local
civil-date projection.  Two instants are on the same local calendar day
exactly when their `date` fields agree. -/
structure Instant where
  ms : Int
  date : CivilDate
deriving DecidableEq

/-- `dateKey` from App.tsx: `` `${y}-${m}-${day}` `` with the month
(`getMonth() + 1`) and day zero-padded via `padStart(2, '0')`. -/
def dateKey (d : CivilDate) : String :=
  natRepr d.year ++ "-" ++ padStart2 (natRepr (d.month + 1)) ++ "-" ++ padStart2 (natRepr d.day)

/-- Whether `y` is a leap year in the proleptic Gregorian calendar used by
JS `Date` normalization. -/
def isLeap (y : Nat) : Bool := y % 4 == 0 && (y % 100 != 0 || y % 400 == 0)

/-- Days in 0-based month `m` of year `y` (JS `Date` calendar). -/
def daysInMonth (y m : Nat) : Nat :=
  match m with
  | 0 => 31
  | 1 => if isLeap y then 29 else 28
  | 2 => 31
  | 3 => 30
  | 4 => 31
  | 5 => 30
  | 6 => 31
  | 7 => 31
  | 8 => 30
  | 9 => 31
  | 10 => 30
  | _ => 31

/-- The calendar day before `d`: the normalization JS `Date` performs for
`setDate(getDate() - 1)`.  Subtracting `i` days is `prevDay` iterated `i`
times. -/
def prevDay (d : CivilDate) : CivilDate :=
  if 1 < d.day then ⟨d.year, d.month, d.day - 1⟩
  else if 0 < d.month then ⟨d.year, d.month - 1, daysInMonth d.year (d.month - 1)⟩
  else ⟨d.year - 1, 11, 31⟩

/-! ### Ledger data model -/

/-- `ExpenseEntry` from App.tsx. -/
structure Entry where
  id : String
  amount : ℚ
  timestamp : Instant
  category : String
  note : String
deriving DecidableEq

/-- `DayBook`: a JS object mapping day keys to entry lists, embedded as an
association list in key-insertion order (the order `Object.keys` /
`Object.values` enumerate). -/
abbrev Book := List (String × List Entry)

/-- Lookup `book[k]` (`none` when the key is absent). -/
def getBucket : Book → String → Option (List Entry)
  | [], _ => none
  | (k', v) :: rest, k => if k' = k then some v else getBucket rest k

/-- The JS spread update `{...book, [k]: v}`: an existing key keeps its
position and gets the new value; a fresh key is appended at the end. -/
def setKey : Book → String → List Entry → Book
  | [], k, v => [(k, v)]
  | (k', v') :: rest, k, v =>
      if k' = k then (k, v) :: rest else (k', v') :: setKey rest k v

/-- `Object.values(book).flat()`. -/
def allEntries (book : Book) : List Entry := (book.map Prod.snd).flatten

/-- A `Category` record from App.tsx. -/
structure Category where
  id : String
  name : String
  color : String
  icon : String
deriving DecidableEq

/-- A currency option from App.tsx. -/
structure Currency where
  code : String
  symbol : String
  name : String
deriving DecidableEq

/-- The persistent application state held by the `App` component
(presentation-only state such as the settings toggle is omitted). -/
structure AppState where
  dailyBudget : ℚ
  quickAmounts : List ℚ
  book : Book
  categories : List Category
  currency : Currency
deriving DecidableEq

/-! ### Ledger mutations -/

/-- `addAmount` from App.tsx.  The source reads the fresh random id, the
current timestamp and the tracked `todayKey` from its environment; here
they are explicit parameters.  `if (!(amt > 0)) return;` makes the whole
call a no-op for non-positive amounts; otherwise the entry is pushed onto
a copy of today's bucket (`[]` when absent) and the book is spread-updated. -/
def addAmount (s : AppState) (todayKey : String) (amt : ℚ)
    (category note newId : String) (ts : Instant) : AppState :=
  if 0 < amt then
    { s with book := (setKey s.book todayKey
        (((getBucket s.book todayKey).getD []) ++
          [{ id := newId, amount := amt, timestamp := ts, category := category, note := note }])) }
  else s

/-- `deleteExpense` from App.tsx: filter today's bucket (`[]` when absent)
by `expense.id !== expenseId` and spread-update the book at `todayKey`. -/
def deleteExpense (s : AppState) (todayKey expenseId : String) : AppState :=
  { s with book := (setKey s.book todayKey
      (((getBucket s.book todayKey).getD []).filter (fun e => e.id != expenseId))) }

/-- The confirmed branch of `clearToday` from App.tsx:
`setBook(prev => ({ ...prev, [todayKey]: [] }))`. -/
def clearToday (s : AppState) (todayKey : String) : AppState :=
  { s with book := setKey s.book todayKey [] }

/-! ### Derived aggregates (pure projections, App.tsx lines 126-164) -/

/-- `todayEntries`: `book[todayKey] || []`. -/
def todayEntries (book : Book) (todayKey : String) : List Entry :=
  (getBucket book todayKey).getD []

/-- `todayTotal`: `todayEntries.reduce((acc, e) => acc + e.amount, 0)`. -/
def todayTotal (book : Book) (todayKey : String) : ℚ :=
  (todayEntries book todayKey).foldl (fun acc e => acc + e.amount) 0

/-- `remaining = Math.max(0, dailyBudget - todayTotal)`. -/
def remaining (dailyBudget todayTotal : ℚ) : ℚ := max 0 (dailyBudget - todayTotal)

/-- `progress = dailyBudget > 0 ? Math.min(1, todayTotal / dailyBudget) : 0`. -/
def progress (dailyBudget todayTotal : ℚ) : ℚ :=
  if 0 < dailyBudget then min 1 (todayTotal / dailyBudget) else 0

/-- The record computed by the `spendingSummary` memo. -/
structure Summary where
  averageDaily : ℚ
  thisMonthTotal : ℚ
  totalSpent : ℚ
deriving DecidableEq

/-- `spendingSummary` from App.tsx: flatten the book, total it, divide by
`Object.keys(book).length || 1`, and total the entries whose timestamp has
this month and year (`new Date(entry.timestamp).getMonth()/.getFullYear()`
against `now`). -/
def spendingSummary (book : Book) (now : Instant) : Summary :=
  let all := allEntries book
  let totalSpent : ℚ := all.foldl (fun acc e => acc + e.amount) 0
  let totalDays : Nat := if book.length = 0 then 1 else book.length
  let averageDaily : ℚ := totalSpent / (totalDays : ℚ)
  let thisMonthEntries := all.filter (fun e =>
    e.timestamp.date.month == now.date.month && e.timestamp.date.year == now.date.year)
  let thisMonthTotal : ℚ := thisMonthEntries.foldl (fun acc e => acc + e.amount) 0
  { averageDaily := averageDaily, thisMonthTotal := thisMonthTotal, totalSpent := totalSpent }

/-- One day's total inside `last7Totals`:
`(book[key] || []).reduce((s, e) => s + e.amount, 0)`. -/
def bucketTotal (book : Book) (key : String) : ℚ :=
  ((getBucket book key).getD []).foldl (fun acc e => acc + e.amount) 0

/-- `last7Totals` from App.tsx: for `i = 6` down to `0`, the day `i` days
before today (via `setDate(getDate() - i)` at midnight, i.e. `prevDay`
iterated `i` times) paired with that day's bucket total. -/
def last7Totals (book : Book) (today : CivilDate) : List (CivilDate × ℚ) :=
  [6, 5, 4, 3, 2, 1, 0].map
    (fun i => (prevDay^[i] today, bucketTotal book (dateKey (prevDay^[i] today))))

/-! ### Export (App.tsx lines 245-280) -/

/-- `allEntries.sort((a, b) => b.timestamp - a.timestamp)`: stable sort,
newest first. -/
def sortedEntries (book : Book) : List Entry :=
  (allEntries book).mergeSort (fun a b => decide (b.timestamp.ms ≤ a.timestamp.ms))

/-- `entry.note.replace(/,/g, ';')`. -/
def replaceCommas (s : String) : String :=
  String.mk (s.data.map (fun c => if c = ',' then ';' else c))

/-- Model of JavaScript `n.toFixed(2)`: the value rounded to hundredths,
rendered with exactly two digits after the decimal point. -/
def toFixed2 (q : ℚ) : String :=
  let n : Int := round (q * 100)
  (if n < 0 then "-" else "") ++ natRepr (n.natAbs / 100) ++ "." ++ padStart2 (natRepr (n.natAbs % 100))

/-- Modelled from the spec: `new Date(entry.timestamp).toLocaleDateString()`
is a platform locale formatter not present in the repository; the spec only
requires "date as locale-formatted string", modelled here as the en-US
`M/D/YYYY` rendering of the timestamp's local civil date. -/
def fmtDate (t : Instant) : String :=
  natRepr (t.date.month + 1) ++ "/" ++ natRepr t.date.day ++ "/" ++ natRepr t.date.year

/-- One CSV row: `` `${date},${amount},${category},${note}` ``. -/
def csvRow (e : Entry) : String :=
  fmtDate e.timestamp ++ "," ++ toFixed2 e.amount ++ "," ++ e.category ++ "," ++ replaceCommas e.note

/-- The CSV branch of `exportData`: header plus `csvRows.join('\n')`. -/
def exportCSV (book : Book) : String :=
  "Date,Amount,Category,Note\n" ++ String.intercalate "\n" ((sortedEntries book).map csvRow)

/-! ### Concrete sample data used by witnesses and counterexamples -/

/-- The default currency option. -/
def demoCurrency : Currency := ⟨"USD", "$", "US Dollar"⟩

/-- A sample calendar date (2024-01-05). -/
def demoDate : CivilDate := ⟨2024, 0, 5⟩

/-- A sample instant on `demoDate`. -/
def demoInstant : Instant := ⟨1704412800000, demoDate⟩

/-- A minimal state with an empty ledger (no day bucket exists yet). -/
def demoState : AppState := ⟨30, [2, 5, 10, 20], [], [], demoCurrency⟩

/-- A sample entry of amount 10 logged on `demoDate`. -/
def demoEntry : Entry := ⟨"e1", 10, demoInstant, "food", ""⟩

/-- A ledger with one touched-and-filled day and one touched-then-cleared
day: keys `2024-01-01` (total 10) and `2024-01-02` (empty). -/
def demoBook : Book := [("2024-01-01", [demoEntry]), ("2024-01-02", [])]

/-- A state whose ledger already has an (empty) bucket for `2024-01-05`. -/
def demoStateWithBucket : AppState := ⟨30, [2, 5, 10, 20], [("2024-01-05", [])], [], demoCurrency⟩

/-- An entry whose timestamp is in February 2024. -/
def febEntry : Entry := ⟨"e2", 7, ⟨1707900000000, ⟨2024, 1, 14⟩⟩, "food", ".."⟩

/-- An instant in February 2024. -/
def febInstant : Instant := ⟨1707900400000, ⟨2024, 1, 14⟩⟩

/-- `febEntry` filed under the bucket key it was created on. -/
def febBookMatching : Book := [("2024-02-14", [febEntry])]

/-- `febEntry` filed under a bucket key that disagrees with its timestamp. -/
def febBookSkewed : Book := [("1999-12-31", [febEntry])]

/-! ### Numeral lemmas -/

theorem ofDigitsRev_toDigitsRev : ∀ fuel n, n ≤ fuel → ofDigitsRev (toDigitsRev fuel n) = n := by
  intro fuel
  induction fuel with
  | zero => intro n h; interval_cases n; rfl
  | succ fuel ih =>
    intro n h
    by_cases hn : n = 0
    · simp [toDigitsRev, hn, ofDigitsRev]
    · have hdiv : n / 10 ≤ fuel := by
        have : n / 10 < n := Nat.div_lt_self (Nat.pos_of_ne_zero hn) (by omega)
        omega
      simp only [toDigitsRev, hn, if_false, ofDigitsRev, ih _ hdiv]
      omega

theorem toDigitsRev_lt_ten : ∀ fuel n d, d ∈ toDigitsRev fuel n → d < 10 := by
  intro fuel
  induction fuel with
  | zero => intro n d h; simp [toDigitsRev] at h
  | succ fuel ih =>
    intro n d h
    by_cases hn : n = 0
    · simp [toDigitsRev, hn] at h
    · simp only [toDigitsRev, hn, if_false, List.mem_cons] at h
      rcases h with h | h
      · omega
      · exact ih _ _ h

theorem charToDigit_digitChar : ∀ d, d < 10 → charToDigit (digitChar d) = d := by decide

theorem decodeRepr_natRepr (n : Nat) : decodeRepr (natRepr n) = n := by
  by_cases hn : n = 0
  · subst hn; rfl
  · simp only [decodeRepr, natRepr, hn, if_false]
    rw [List.reverse_reverse, List.map_map]
    have : ((toDigitsRev n n).map (charToDigit ∘ digitChar)) = (toDigitsRev n n).map id := by
      apply List.map_congr_left
      intro d hd
      exact charToDigit_digitChar d (toDigitsRev_lt_ten n n d hd)
    rw [this, List.map_id, ofDigitsRev_toDigitsRev n n (Nat.le_refl n)]

theorem natRepr_injective {a b : Nat} (h : natRepr a = natRepr b) : a = b := by
  rw [← decodeRepr_natRepr a, ← decodeRepr_natRepr b, h]

theorem digitChar_isDigit : ∀ d, d < 10 → 48 ≤ (digitChar d).toNat ∧ (digitChar d).toNat ≤ 57 := by
  decide

/-- Every character of a decimal numeral is a digit (code 48–57). -/
theorem natRepr_chars_digits (n : Nat) :
    ∀ c ∈ (natRepr n).data, 48 ≤ c.toNat ∧ c.toNat ≤ 57 := by
  by_cases hn : n = 0
  · subst hn; decide
  · intro c hc
    simp only [natRepr, hn, if_false] at hc
    have : c ∈ ((toDigitsRev n n).map digitChar).reverse := hc
    rw [List.mem_reverse, List.mem_map] at this
    obtain ⟨d, hd, rfl⟩ := this
    exact digitChar_isDigit d (toDigitsRev_lt_ten n n d hd)

theorem natRepr_no_dot (n : Nat) : ('.') ∉ (natRepr n).data := by
  intro h
  have hb := natRepr_chars_digits n _ h
  have : ('.').toNat = 46 := by decide
  omega

/-- The padded month field has exactly two characters. -/
theorem padMM_len : ∀ m, m < 12 → (padStart2 (natRepr (m + 1))).data.length = 2 := by decide

/-- Any padded two-digit field (`k < 100`) has exactly two characters. -/
theorem pad100_len : ∀ k, k < 100 → (padStart2 (natRepr k)).data.length = 2 := by decide

/-- No decimal point occurs in a padded two-digit field. -/
theorem pad100_no_dot : ∀ k, k < 100 → ('.') ∉ (padStart2 (natRepr k)).data := by decide

/-- The padded month field determines the month. -/
theorem padMM_inj : ∀ m₁, m₁ < 12 → ∀ m₂, m₂ < 12 →
    padStart2 (natRepr (m₁ + 1)) = padStart2 (natRepr (m₂ + 1)) → m₁ = m₂ := by decide

/-- The padded day field determines the day. -/
theorem padDD_inj : ∀ d₁, d₁ < 32 → ∀ d₂, d₂ < 32 →
    padStart2 (natRepr d₁) = padStart2 (natRepr d₂) → d₁ = d₂ := by decide

/-! ### Association-list lemmas -/

theorem getBucket_setKey_self (b : Book) (k : String) (v : List Entry) :
    getBucket (setKey b k v) k = some v := by
  induction b with
  | nil => simp [setKey, getBucket]
  | cons hd tl ih =>
    obtain ⟨k', v'⟩ := hd
    by_cases h : k' = k
    · simp [setKey, getBucket, h]
    · simp [setKey, getBucket, h, ih]

theorem getBucket_setKey_ne (b : Book) (k k' : String) (v : List Entry) (h : k' ≠ k) :
    getBucket (setKey b k v) k' = getBucket b k' := by
  have hne : k ≠ k' := fun hk => h hk.symm
  induction b with
  | nil => simp [setKey, getBucket, hne]
  | cons hd tl ih =>
    obtain ⟨k₀, v₀⟩ := hd
    by_cases hk : k₀ = k
    · subst hk
      simp [setKey, getBucket, hne]
    · simp [setKey, getBucket, hk, ih]

theorem setKey_eq_of_getBucket (b : Book) (k : String) (v : List Entry)
    (h : getBucket b k = some v) : setKey b k v = b := by
  induction b with
  | nil => simp [getBucket] at h
  | cons hd tl ih =>
    obtain ⟨k₀, v₀⟩ := hd
    by_cases hk : k₀ = k
    · subst hk
      simp [getBucket] at h
      simp [setKey, h]
    · simp [getBucket, hk] at h
      simp [setKey, hk, ih h]

theorem setKey_of_getBucket_none (b : Book) (k : String) (v : List Entry)
    (h : getBucket b k = none) : setKey b k v = b ++ [(k, v)] := by
  induction b with
  | nil => simp [setKey]
  | cons hd tl ih =>
    obtain ⟨k₀, v₀⟩ := hd
    by_cases hk : k₀ = k
    · simp [getBucket, hk] at h
    · simp [getBucket, hk] at h
      simp [setKey, hk, ih h]

/-! ### Fold helpers -/

/-- `reduce((acc, e) => acc + e.amount, a)` is `a` plus the sum of the
amounts. -/
theorem foldl_add_amount (l : List Entry) (a : ℚ) :
    l.foldl (fun acc e => acc + e.amount) a = a + (l.map Entry.amount).sum := by
  induction l generalizing a with
  | nil => simp
  | cons e tl ih => simp [ih]; ring

theorem bucketTotal_eq_sum (book : Book) (key : String) :
    bucketTotal book key = (((getBucket book key).getD []).map Entry.amount).sum := by
  unfold bucketTotal
  rw [foldl_add_amount, zero_add]

/-! ### C1: running average -/

/-- C1: for every ledger, `averageDaily` is the total of all entry amounts
across all day buckets divided by `max 1 (number of day keys)`; a key that
exists but maps to an empty bucket still counts in the denominator, so the
ledger `2024-01-01 ↦ total 10, 2024-01-02 ↦ empty` yields average 5. -/
theorem averageDaily_spec :
    (∀ (book : Book) (now : Instant),
      (spendingSummary book now).averageDaily
        = ((allEntries book).map Entry.amount).sum / ((max 1 book.length : Nat) : ℚ))
    ∧ (spendingSummary demoBook demoInstant).averageDaily = 5 := by
  constructor
  · intro book now
    simp only [spendingSummary, foldl_add_amount, zero_add]
    rcases Nat.eq_zero_or_pos book.length with h | h
    · rw [h]
      norm_num
    · rw [if_neg (Nat.pos_iff_ne_zero.mp h), Nat.max_eq_right h]
  · simp only [spendingSummary, demoBook, allEntries, demoEntry, List.map_cons, List.map_nil,
      List.flatten, List.foldl, List.length]
    norm_num

/-- C1 witness: the formula applied to the two-day demo ledger. -/
theorem averageDaily_spec_witness :
    (spendingSummary demoBook demoInstant).averageDaily
      = ((allEntries demoBook).map Entry.amount).sum / ((max 1 demoBook.length : Nat) : ℚ) :=
  averageDaily_spec.1 demoBook demoInstant

/-! ### C2: deleting an absent id -/

/-- C2 counterexample: with an empty ledger (today's bucket does not
exist), deleting a non-existent id is *not* a no-op — the spread update
`{...prev, [todayKey]: filtered}` creates an empty bucket under the
current day key, so the resulting ledger differs from the original. -/
theorem deleteExpense_missing_bucket_counterexample :
    (deleteExpense demoState "2024-01-05" "someId").book ≠ demoState.book := by
  decide

/-- C2 (amended): deleting an id absent from the current day's bucket is a
no-op when that bucket exists; when the current day has no bucket at all,
the call instead appends an empty bucket under the current day key,
leaving everything else unchanged. -/
theorem deleteExpense_absent_id (s : AppState) (todayKey expenseId : String) :
    (∀ l, getBucket s.book todayKey = some l → (∀ e ∈ l, e.id ≠ expenseId) →
      deleteExpense s todayKey expenseId = s)
    ∧ (getBucket s.book todayKey = none →
      (deleteExpense s todayKey expenseId).book = s.book ++ [(todayKey, [])]) := by
  constructor
  · intro l hl hids
    unfold deleteExpense
    rw [hl]
    simp only [Option.getD_some]
    have hfilt : l.filter (fun e => e.id != expenseId) = l := by
      rw [List.filter_eq_self]
      intro e he
      simpa using hids e he
    rw [hfilt, setKey_eq_of_getBucket s.book todayKey l hl]
  · intro h
    unfold deleteExpense
    rw [h]
    simp only [Option.getD_none, List.filter_nil]
    exact setKey_of_getBucket_none s.book todayKey [] h

/-- C2 witness: both branches at concrete states — an existing empty
bucket makes the delete a strict no-op; a missing bucket gets created. -/
theorem deleteExpense_absent_id_witness :
    deleteExpense demoStateWithBucket "2024-01-05" "someId" = demoStateWithBucket
    ∧ (deleteExpense demoState "2024-01-05" "someId").book
        = demoState.book ++ [("2024-01-05", [])] :=
  ⟨(deleteExpense_absent_id demoStateWithBucket "2024-01-05" "someId").1 [] rfl
      (by intro e he; simp at he),
   (deleteExpense_absent_id demoState "2024-01-05" "someId").2 rfl⟩

/-! ### C3: add/delete round trip -/

/-- C3: adding an entry (with a fresh id) and then deleting that id
restores the current day's bucket to exactly its prior content, for any
positive amount. -/
theorem add_then_delete_roundtrip (s : AppState) (todayKey : String) (amt : ℚ)
    (category note newId : String) (ts : Instant)
    (hamt : 0 < amt)
    (hfresh : ∀ e ∈ todayEntries s.book todayKey, e.id ≠ newId) :
    todayEntries
        (deleteExpense (addAmount s todayKey amt category note newId ts) todayKey newId).book
        todayKey
      = todayEntries s.book todayKey := by
  unfold addAmount
  rw [if_pos hamt]
  unfold deleteExpense todayEntries
  simp only [getBucket_setKey_self, Option.getD_some, List.filter_append]
  have hdrop : [(⟨newId, amt, ts, category, note⟩ : Entry)].filter
      (fun e => e.id != newId) = [] := by
    simp
  have hkeep : ((getBucket s.book todayKey).getD []).filter (fun e => e.id != newId)
      = (getBucket s.book todayKey).getD [] := by
    rw [List.filter_eq_self]
    intro e he
    simpa using hfresh e he
  rw [hdrop, hkeep, List.append_nil]

/-- C3 witness: round trip on a state whose bucket already holds an entry. -/
theorem add_then_delete_roundtrip_witness :
    todayEntries
        (deleteExpense (addAmount ⟨30, [], demoBook, [], demoCurrency⟩ "2024-01-01" 5 "food" "" "fresh" demoInstant)
          "2024-01-01" "fresh").book "2024-01-01"
      = todayEntries demoBook "2024-01-01" :=
  add_then_delete_roundtrip ⟨30, [], demoBook, [], demoCurrency⟩ "2024-01-01" 5 "food" "" "fresh"
    demoInstant (by norm_num)
    (by intro e he; simp [todayEntries, demoBook, getBucket, demoEntry] at he; simp [he])

/-! ### C4: non-positive amounts are rejected -/

/-- C4: `addAmount` with a non-positive amount is a silent no-op — the
state (ledger included) is returned unchanged, so no entry is appended and
no bucket is created.  (`if (!(amt > 0)) return;` also rejects `NaN`,
which has no rational counterpart; every representable non-positive amount
is covered here.) -/
theorem addAmount_nonpositive_noop (s : AppState) (todayKey : String) (amt : ℚ)
    (category note newId : String) (ts : Instant) (h : amt ≤ 0) :
    addAmount s todayKey amt category note newId ts = s := by
  unfold addAmount
  rw [if_neg (not_lt.mpr h)]

/-- C4 witness: adding `-3` (and adding `0`) to the demo state changes
nothing. -/
theorem addAmount_nonpositive_noop_witness :
    addAmount demoState "2024-01-05" (-3) "food" "" "id1" demoInstant = demoState
    ∧ addAmount demoState "2024-01-05" 0 "food" "" "id1" demoInstant = demoState :=
  ⟨addAmount_nonpositive_noop demoState "2024-01-05" (-3) "food" "" "id1" demoInstant (by norm_num),
   addAmount_nonpositive_noop demoState "2024-01-05" 0 "food" "" "id1" demoInstant (by norm_num)⟩

/-! ### C7: remaining and progress are clamped -/

/-- C7: for every budget and non-negative today total,
`remaining = max 0 (budget - total)` is never negative and, for a
non-negative budget, lies in `[0, budget]`; `progress` is
`min 1 (total/budget)` clamped to `[0, 1]` for every budget, with a zero
or negative budget yielding `0` rather than a division by zero or an
unbounded ratio. -/
theorem remaining_progress_clamped (b t : ℚ) (ht : 0 ≤ t) :
    remaining b t = max 0 (b - t)
    ∧ 0 ≤ remaining b t
    ∧ (0 ≤ b → remaining b t ≤ b)
    ∧ 0 ≤ progress b t ∧ progress b t ≤ 1
    ∧ (b ≤ 0 → progress b t = 0) := by
  refine ⟨rfl, le_max_left 0 (b - t),
    fun hb => max_le hb (sub_le_self b ht), ?_, ?_, ?_⟩
  · unfold progress
    split
    · have hb : (0 : ℚ) ≤ b := le_of_lt (by assumption)
      exact le_min zero_le_one (div_nonneg ht hb)
    · exact le_refl 0
  · unfold progress
    split
    · exact min_le_left 1 _
    · exact zero_le_one
  · intro hb0
    unfold progress
    rw [if_neg (not_lt.mpr hb0)]

/-- C7 witness: the spec scenarios budget 30 / total 17 and budget 20 /
total 25, plus a zero and a negative budget, where progress is 0 and the
clamps still hold. -/
theorem remaining_progress_clamped_witness :
    remaining 30 17 = 13 ∧ progress 30 17 = 17 / 30
    ∧ 0 ≤ remaining 30 17 ∧ remaining 30 17 ≤ 30
    ∧ remaining 20 25 = 0 ∧ progress 20 25 = 1
    ∧ progress 0 17 = 0
    ∧ progress (-5) 17 = 0 ∧ 0 ≤ progress (-5) 17 ∧ progress (-5) 17 ≤ 1
    ∧ 0 ≤ remaining (-5) 17 := by
  have h30 := remaining_progress_clamped 30 17 (by norm_num)
  have h0 := remaining_progress_clamped 0 17 (by norm_num)
  have hneg := remaining_progress_clamped (-5) 17 (by norm_num)
  refine ⟨?_, ?_, h30.2.1, h30.2.2.1 (by norm_num), ?_, ?_,
    h0.2.2.2.2.2 (by norm_num), hneg.2.2.2.2.2 (by norm_num),
    hneg.2.2.2.1, hneg.2.2.2.2.1, hneg.2.1⟩
  · unfold remaining
    norm_num
  · unfold progress
    rw [if_pos (by norm_num)]
    rw [min_eq_right (by norm_num)]
  · unfold remaining
    norm_num
  · unfold progress
    rw [if_pos (by norm_num)]
    rw [min_eq_left (by norm_num)]

/-! ### C10: frame conditions of the mutations -/

/-- C10: each ledger mutation modifies at most the bucket under the
current day key — any other key's bucket (or its absence) is unchanged —
and leaves the budget, quick amounts, categories and currency untouched. -/
theorem mutations_frame (s : AppState) (todayKey k : String) (hk : k ≠ todayKey)
    (amt : ℚ) (category note newId : String) (ts : Instant) (expenseId : String) :
    (getBucket (addAmount s todayKey amt category note newId ts).book k = getBucket s.book k
      ∧ (addAmount s todayKey amt category note newId ts).dailyBudget = s.dailyBudget
      ∧ (addAmount s todayKey amt category note newId ts).quickAmounts = s.quickAmounts
      ∧ (addAmount s todayKey amt category note newId ts).categories = s.categories
      ∧ (addAmount s todayKey amt category note newId ts).currency = s.currency)
    ∧ (getBucket (deleteExpense s todayKey expenseId).book k = getBucket s.book k
      ∧ (deleteExpense s todayKey expenseId).dailyBudget = s.dailyBudget
      ∧ (deleteExpense s todayKey expenseId).quickAmounts = s.quickAmounts
      ∧ (deleteExpense s todayKey expenseId).categories = s.categories
      ∧ (deleteExpense s todayKey expenseId).currency = s.currency)
    ∧ (getBucket (clearToday s todayKey).book k = getBucket s.book k
      ∧ (clearToday s todayKey).dailyBudget = s.dailyBudget
      ∧ (clearToday s todayKey).quickAmounts = s.quickAmounts
      ∧ (clearToday s todayKey).categories = s.categories
      ∧ (clearToday s todayKey).currency = s.currency) := by
  refine ⟨⟨?_, ?_, ?_, ?_, ?_⟩, ⟨?_, rfl, rfl, rfl, rfl⟩, ⟨?_, rfl, rfl, rfl, rfl⟩⟩
  · unfold addAmount
    split
    · exact getBucket_setKey_ne _ _ _ _ hk
    · rfl
  · unfold addAmount; split <;> rfl
  · unfold addAmount; split <;> rfl
  · unfold addAmount; split <;> rfl
  · unfold addAmount; split <;> rfl
  · unfold deleteExpense
    exact getBucket_setKey_ne _ _ _ _ hk
  · unfold clearToday
    exact getBucket_setKey_ne _ _ _ _ hk

/-- C10 witness: mutations under key `2024-01-05` leave key `2024-01-04`
and the scalar settings of the demo state untouched. -/
theorem mutations_frame_witness :
    getBucket (addAmount demoState "2024-01-05" 5 "food" "" "id9" demoInstant).book "2024-01-04"
      = getBucket demoState.book "2024-01-04"
    ∧ getBucket (deleteExpense demoState "2024-01-05" "idX").book "2024-01-04"
      = getBucket demoState.book "2024-01-04"
    ∧ getBucket (clearToday demoState "2024-01-05").book "2024-01-04"
      = getBucket demoState.book "2024-01-04"
    ∧ (clearToday demoState "2024-01-05").dailyBudget = demoState.dailyBudget := by
  have h := mutations_frame demoState "2024-01-05" "2024-01-04" (by decide)
    5 "food" "" "id9" demoInstant "idX"
  exact ⟨h.1.1, h.2.1.1, h.2.2.1, h.2.2.2.1⟩

/-! ### C8: monthly total classifies by entry timestamp -/

/-- C8: `thisMonthTotal` sums exactly the entries, across all buckets,
whose own timestamp has the same calendar month and year as `now`; it is
invariant under re-keying buckets (only the flattened entry list matters),
so an entry whose bucket key and timestamp disagree is counted by its
timestamp. -/
theorem monthlyTotal_spec :
    (∀ (book : Book) (now : Instant),
      (spendingSummary book now).thisMonthTotal
        = (((allEntries book).filter (fun e =>
            e.timestamp.date.month == now.date.month
              && e.timestamp.date.year == now.date.year)).map Entry.amount).sum)
    ∧ (∀ (b₁ b₂ : Book) (now : Instant), (allEntries b₁).Perm (allEntries b₂) →
        (spendingSummary b₁ now).thisMonthTotal = (spendingSummary b₂ now).thisMonthTotal) := by
  have h1 : ∀ (book : Book) (now : Instant),
      (spendingSummary book now).thisMonthTotal
        = (((allEntries book).filter (fun e =>
            e.timestamp.date.month == now.date.month
              && e.timestamp.date.year == now.date.year)).map Entry.amount).sum := by
    intro book now
    simp only [spendingSummary, foldl_add_amount, zero_add]
  refine ⟨h1, ?_⟩
  intro b₁ b₂ now hperm
  rw [h1, h1]
  exact List.Perm.sum_eq (List.Perm.map _ (List.Perm.filter _ hperm))

/-- C8 witness: the February-2024 entry contributes its amount whether its
bucket key matches its timestamp (`2024-02-14`) or not (`1999-12-31`). -/
theorem monthlyTotal_spec_witness :
    (spendingSummary febBookMatching febInstant).thisMonthTotal
      = (spendingSummary febBookSkewed febInstant).thisMonthTotal
    ∧ (spendingSummary febBookSkewed febInstant).thisMonthTotal = 7 := by
  constructor
  · exact monthlyTotal_spec.2 febBookMatching febBookSkewed febInstant (List.Perm.of_eq rfl)
  · simp only [spendingSummary, febBookSkewed, allEntries, febEntry, febInstant]
    norm_num

/-! ### C6: the weekly history -/

/-- C6: `last7Totals` has exactly 7 rows; row `i` (0-based, oldest first)
is the day `6 - i` days before today with that day's bucket total under
the `dateKey` formula; the last row is today; every row's total is the sum
of the amounts in that day's bucket, and a day with no bucket contributes
0. -/
theorem last7Totals_spec (book : Book) (today : CivilDate) :
    (last7Totals book today).length = 7
    ∧ (∀ i, i < 7 → (last7Totals book today)[i]? =
        some (prevDay^[6 - i] today, bucketTotal book (dateKey (prevDay^[6 - i] today))))
    ∧ (last7Totals book today).getLast?
        = some (today, bucketTotal book (dateKey today))
    ∧ (∀ d q, (d, q) ∈ last7Totals book today →
        q = (((getBucket book (dateKey d)).getD []).map Entry.amount).sum)
    ∧ (∀ d q, (d, q) ∈ last7Totals book today → getBucket book (dateKey d) = none → q = 0) := by
  have hmem : ∀ d q, (d, q) ∈ last7Totals book today →
      q = bucketTotal book (dateKey d) := by
    intro d q hdq
    simp only [last7Totals, List.mem_map] at hdq
    obtain ⟨i, _, heq⟩ := hdq
    injection heq with h1 h2
    subst h1
    exact h2.symm
  refine ⟨rfl, ?_, rfl, ?_, ?_⟩
  · intro i hi
    interval_cases i <;> rfl
  · intro d q hdq
    rw [hmem d q hdq, bucketTotal_eq_sum]
  · intro d q hdq hnone
    rw [hmem d q hdq, bucketTotal_eq_sum, hnone]
    rfl

/-- C6 witness: the weekly history of an empty ledger on the demo date. -/
theorem last7Totals_spec_witness :
    (last7Totals [] demoDate).length = 7
    ∧ (last7Totals [] demoDate)[0]?
        = some (prevDay^[6] demoDate, bucketTotal [] (dateKey (prevDay^[6] demoDate)))
    ∧ (last7Totals [] demoDate).getLast? = some (demoDate, bucketTotal [] (dateKey demoDate)) :=
  ⟨(last7Totals_spec [] demoDate).1,
   by simpa using (last7Totals_spec [] demoDate).2.1 0 (by norm_num),
   (last7Totals_spec [] demoDate).2.2.1⟩

/-! ### C5: day keys are per-day constant and distinguish days -/

/-- The `"-"` separator as a character list. -/
theorem dash_data : ("-" : String).data = ['-'] := rfl

/-- `dateKey` is injective on valid civil dates. -/
theorem dateKey_injOn (d₁ d₂ : CivilDate) (h₁ : d₁.Valid) (h₂ : d₂.Valid)
    (h : dateKey d₁ = dateKey d₂) : d₁ = d₂ := by
  obtain ⟨hm₁, hdl₁, hdu₁⟩ := h₁
  obtain ⟨hm₂, hdl₂, hdu₂⟩ := h₂
  have hd : (natRepr d₁.year).data ++
      ('-' :: ((padStart2 (natRepr (d₁.month + 1))).data ++
        ('-' :: (padStart2 (natRepr d₁.day)).data)))
      = (natRepr d₂.year).data ++
      ('-' :: ((padStart2 (natRepr (d₂.month + 1))).data ++
        ('-' :: (padStart2 (natRepr d₂.day)).data))) := by
    have hdata := congrArg String.data h
    simp only [dateKey, String.data_append, dash_data, List.append_assoc,
      List.singleton_append] at hdata
    exact hdata
  have hlen : ('-' :: ((padStart2 (natRepr (d₁.month + 1))).data ++
        ('-' :: (padStart2 (natRepr d₁.day)).data))).length
      = ('-' :: ((padStart2 (natRepr (d₂.month + 1))).data ++
        ('-' :: (padStart2 (natRepr d₂.day)).data))).length := by
    simp [padMM_len _ hm₁, padMM_len _ hm₂,
      pad100_len d₁.day (by omega), pad100_len d₂.day (by omega)]
  obtain ⟨hy, hrest⟩ := List.append_inj' hd hlen
  have hyear : d₁.year = d₂.year := natRepr_injective (String.ext hy)
  injection hrest with _ hrest2
  obtain ⟨hm, hdd⟩ := List.append_inj hrest2
    (by rw [padMM_len _ hm₁, padMM_len _ hm₂])
  have hmonth : d₁.month = d₂.month := padMM_inj d₁.month hm₁ d₂.month hm₂ (String.ext hm)
  injection hdd with _ hdd2
  have hday : d₁.day = d₂.day :=
    padDD_inj d₁.day (by omega) d₂.day (by omega) (String.ext hdd2)
  cases d₁; cases d₂
  simp_all

/-- C5: `dateKey` is a total deterministic function of an instant's local
civil date, rendered as zero-padded `YYYY-MM-DD`; instants on the same
local calendar day get equal keys, and instants on distinct calendar days
get distinct keys. -/
theorem dateKey_day_spec :
    (∀ t₁ t₂ : Instant, t₁.date = t₂.date → dateKey t₁.date = dateKey t₂.date)
    ∧ (∀ t₁ t₂ : Instant, t₁.date.Valid → t₂.date.Valid →
        dateKey t₁.date = dateKey t₂.date → t₁.date = t₂.date)
    ∧ dateKey ⟨2024, 0, 5⟩ = "2024-01-05" :=
  ⟨fun _ _ h => by rw [h],
   fun _ _ h₁ h₂ h => dateKey_injOn _ _ h₁ h₂ h,
   by decide⟩

/-- C5 witness: two instants at different milliseconds of the demo day
share the key, and equal keys at valid dates force equal dates. -/
theorem dateKey_day_spec_witness :
    dateKey (⟨0, demoDate⟩ : Instant).date = dateKey (⟨86399999, demoDate⟩ : Instant).date
    ∧ (⟨0, demoDate⟩ : Instant).date = (⟨86399999, demoDate⟩ : Instant).date :=
  ⟨dateKey_day_spec.1 ⟨0, demoDate⟩ ⟨86399999, demoDate⟩ rfl,
   dateKey_day_spec.2.1 ⟨0, demoDate⟩ ⟨86399999, demoDate⟩ (by decide) (by decide) (by decide)⟩

/-! ### C9: the CSV export -/

/-- The sort used by the export is descending in the entries' timestamps. -/
theorem sortedEntries_sorted (book : Book) :
    (sortedEntries book).Pairwise (fun a b => b.timestamp.ms ≤ a.timestamp.ms) := by
  have h : (sortedEntries book).Pairwise
      (fun a b => (decide (b.timestamp.ms ≤ a.timestamp.ms)) = true) := by
    apply List.sorted_mergeSort
    · intro a b c hab hbc
      simp only [decide_eq_true_eq] at hab hbc ⊢
      omega
    · intro a b
      simp only [Bool.or_eq_true, decide_eq_true_eq]
      omega
  exact h.imp (fun hab => by simpa using hab)

/-- `replace(/,/g, ';')` leaves no comma behind. -/
theorem replaceCommas_no_comma (s : String) : (',') ∉ (replaceCommas s).data := by
  intro h
  have h' : (',') ∈ s.data.map (fun c => if c = ',' then ';' else c) := h
  obtain ⟨c, _, heq⟩ := List.mem_map.mp h'
  by_cases hcc : c = ','
  · simp [hcc] at heq
  · simp [hcc] at heq

/-- `toFixed(2)` output splits at a decimal point followed by exactly two
digit characters. -/
theorem toFixed2_decomp (q : ℚ) : ∃ a b : String,
    toFixed2 q = a ++ "." ++ b ∧ b.data.length = 2 ∧ ('.') ∉ b.data ∧ ('.') ∉ a.data := by
  refine ⟨(if round (q * 100) < 0 then "-" else "")
      ++ natRepr ((round (q * 100)).natAbs / 100),
    padStart2 (natRepr ((round (q * 100)).natAbs % 100)), rfl, ?_, ?_, ?_⟩
  · exact pad100_len _ (Nat.mod_lt _ (by norm_num))
  · exact pad100_no_dot _ (Nat.mod_lt _ (by norm_num))
  · intro hdot
    rw [String.data_append] at hdot
    rcases List.mem_append.mp hdot with hmem | hmem
    · revert hmem
      split <;> decide
    · exact natRepr_no_dot _ hmem

/-- C9: the CSV export is the header `Date,Amount,Category,Note` followed
by one row per entry, rows ordered by timestamp descending; each row's
amount is rendered with exactly two decimal places, its category is the
raw id, and every comma in the note becomes a semicolon. -/
theorem exportCSV_spec (book : Book) :
    exportCSV book
      = "Date,Amount,Category,Note\n"
          ++ String.intercalate "\n" ((sortedEntries book).map csvRow)
    ∧ (sortedEntries book).Perm (allEntries book)
    ∧ (sortedEntries book).length = (allEntries book).length
    ∧ (sortedEntries book).Pairwise (fun a b => b.timestamp.ms ≤ a.timestamp.ms)
    ∧ (∀ e : Entry, csvRow e
        = fmtDate e.timestamp ++ "," ++ toFixed2 e.amount ++ ","
            ++ e.category ++ "," ++ replaceCommas e.note)
    ∧ (∀ s : String, (',') ∉ (replaceCommas s).data)
    ∧ replaceCommas "coffee, latte" = "coffee; latte"
    ∧ (∀ q : ℚ, ∃ a b : String,
        toFixed2 q = a ++ "." ++ b ∧ b.data.length = 2 ∧ ('.') ∉ b.data ∧ ('.') ∉ a.data) :=
  ⟨rfl, List.mergeSort_perm _ _, (List.mergeSort_perm _ _).length_eq,
   sortedEntries_sorted book, fun _ => rfl, replaceCommas_no_comma,
   by decide, toFixed2_decomp⟩

/-- C9 witness: the spec's comma scenario and the sortedness of the demo
book's export. -/
theorem exportCSV_spec_witness :
    replaceCommas "coffee, latte" = "coffee; latte"
    ∧ (sortedEntries demoBook).Perm (allEntries demoBook)
    ∧ (sortedEntries demoBook).length = (allEntries demoBook).length :=
  ⟨(exportCSV_spec demoBook).2.2.2.2.2.2.1, (exportCSV_spec demoBook).2.1,
   (exportCSV_spec demoBook).2.2.1⟩

end Pebble
